import Mathlib

/-!
Verification development for the campsite-data ingestion pipeline
(api_client.py, doc_api.py, load_to_postgres.py, utils.py).

The Python sources are shallowly embedded: pure fragments become Lean
functions, the database table becomes an explicit list of rows, the
filesystem walk becomes an explicit list of files, and Python exceptions
become Except values.  Machine-level concerns (sockets, the psycopg2
driver, strftime) are represented by explicit inputs, exactly at the
boundary where the Python code consumes them.
-/

/-- JSON values, the payloads moved around by the pipeline. -/
inductive JsonValue where
  | null
  | bool (b : Bool)
  | num (n : Int)
  | str (s : String)
  | arr (xs : List JsonValue)
  | obj (fields : List (String × JsonValue))

/-- Lookup of a key in a JSON object, first binding wins (Python dicts
have unique keys, so the first binding is the binding). Non-objects have
no keys. -/
def jsonLookup (v : JsonValue) (key : String) : Option JsonValue :=
  match v with
  | .obj fields => fields.lookup key
  | _ => none

/-- Membership test for a key of a JSON object, mirroring the Python
expression testing key containment in a dict. -/
def jsonHasKey (v : JsonValue) (key : String) : Bool :=
  (jsonLookup v key).isSome

/-- Decidable test that one character list starts with another. -/
def listStartsWith : List Char → List Char → Bool
  | _, [] => true
  | [], _ :: _ => false
  | a :: as, b :: bs => a == b && listStartsWith as bs

/-- Fuel-indexed worker for pyReplace, scanning left to right and
replacing each non-overlapping occurrence of the pattern, the semantics
of the Python string replace method. -/
def pyReplaceAux (pat rep : List Char) : Nat → List Char → List Char
  | 0, s => s
  | _ + 1, [] => []
  | fuel + 1, c :: rest =>
      if pat ≠ [] ∧ listStartsWith (c :: rest) pat then
        rep ++ pyReplaceAux pat rep fuel ((c :: rest).drop pat.length)
      else
        c :: pyReplaceAux pat rep fuel rest

/-- Replacement of every non-overlapping occurrence of a substring,
left to right, as performed by the Python string replace method. -/
def pyReplace (s pat rep : String) : String :=
  ⟨pyReplaceAux pat.data rep.data s.data.length s.data⟩

/-- Basename of a path string: the part after the last slash, the value
computed by the basename function of the Python os.path module. -/
def pyBasename (p : String) : String :=
  ⟨((p.data.reverse).takeWhile (fun c => c ≠ '/')).reverse⟩

/-- Join of two path components with a slash, the behaviour of the
Python os.path.join (and pathlib) on relative components. -/
def pathJoin (a b : String) : String :=
  a ++ "/" ++ b

/-- Zero-padding of a numeral to width two, the Python zfill(2) applied
to the decimal rendering (also the strftime two-digit field format). -/
def zfill2 (n : Nat) : String :=
  let s := toString n
  if s.length < 2 then "0" ++ s else s

/-!
Embedding of load_to_postgres.py (class PostgresLoader).

The destination table is a list of rows; a committed transaction is a
returned table, a rolled-back one is an Except error leaving the caller
with the unchanged table.  The filesystem walk of process_directory is
an explicit list of the files found under base_dir, each carrying the
directory it sits in, its name, its parse result, and whether the
archive move for it would succeed.
-/

/-- Errors of one file-load transaction: the exception classes caught
and re-raised by load_json_to_table. -/
inductive LoadError where
  | jsonDecode
  | ioError
  | database

/-- One row of the destination table, as produced by the INSERT of
load_json_to_table: the file path bound to the file_name column, the
parsed payload bound to the data column. -/
structure Row where
  file_name : String
  data : JsonValue

/-- Columns of the CREATE TABLE statement of create_tables. -/
inductive ColType where
  | serialPrimaryKey
  | varchar (n : Nat)
  | jsonb
  deriving DecidableEq

/-- A column of the destination schema. -/
structure Column where
  name : String
  ty : ColType
  deriving DecidableEq

/-- The column list of the statement CREATE TABLE IF NOT EXISTS t
(id SERIAL PRIMARY KEY, file_name VARCHAR(255), data JSONB) issued by
PostgresLoader.create_tables. -/
def create_tables_columns : List Column :=
  [⟨"id", .serialPrimaryKey⟩, ⟨"file_name", .varchar 255⟩, ⟨"data", .jsonb⟩]

/-- The column list of the statement INSERT INTO t (file_name, data)
VALUES .. issued by PostgresLoader.load_json_to_table. -/
def insert_columns : List String :=
  ["file_name", "data"]

/-- PostgresLoader.load_json_to_table.  Reads and parses the file
(content is the parse result of its bytes: some value when the file is
syntactically valid JSON); on JSONDecodeError rolls back and re-raises,
leaving the table unchanged.  Otherwise optionally truncates, inserts
one row (file_name := the full path passed in, data := the payload) and
commits.  The returned Nat counts the TRUNCATE statements executed by
this call. -/
def load_json_to_table (table : List Row) (json_file : String)
    (content : Option JsonValue) (truncate : Bool) :
    Except LoadError (List Row × Nat) :=
  match content with
  | none => .error .jsonDecode
  | some v =>
      let t := if truncate then [] else table
      let k := if truncate then 1 else 0
      .ok (t ++ [⟨json_file, v⟩], k)

/-- PostgresLoader.archive_json_file: the destination path of the move,
namely the archive directory joined with the basename of the source
file (the subdirectories of the source path are dropped). -/
def archive_json_file (json_file : String) (archive_dir : String) : String :=
  pathJoin archive_dir (pyBasename json_file)

/-- One file as found by the os.walk of process_directory: the
directory it lies in, its name, its parse result, and whether the
shutil.move of archive_json_file would succeed for it. -/
structure SrcFile where
  dir : String
  name : String
  content : Option JsonValue
  archiveOk : Bool

/-- Full path of a walked file, os.path.join of its directory and
name. -/
def SrcFile.path (f : SrcFile) : String :=
  pathJoin f.dir f.name

/-- State threaded through process_directory: the destination table,
the moves performed into the archive tree (source path, destination
path), and the number of TRUNCATE statements executed so far. -/
structure ProcState where
  table : List Row
  archived : List (String × String)
  truncations : Nat

/-- Decidable suffix test on strings, the Python endswith. -/
def strEndsWith (s suffix : String) : Bool :=
  listStartsWith s.data.reverse suffix.data.reverse

/-- Body of the per-file loop of process_directory: skip names not
ending in .json; otherwise load, and on success archive (an archive
failure is caught and only skips the move, the committed insert
stays); on a load error catch, log and continue with the state
unchanged (the transaction was rolled back). -/
def processFile (truncate : Bool) (archive_dir : String)
    (st : ProcState) (f : SrcFile) : ProcState :=
  if strEndsWith f.name ".json" then
    match load_json_to_table st.table f.path f.content truncate with
    | .error _ => st
    | .ok (t, k) =>
        { table := t
          archived :=
            if f.archiveOk then
              st.archived ++ [(f.path, archive_json_file f.path archive_dir)]
            else st.archived
          truncations := st.truncations + k }
  else st

/-- PostgresLoader.process_directory: computes the archive directory by
replacing every occurrence of the substring raw in base_dir with the
substring archive, then runs the per-file loop over the files found by
os.walk, starting from the current table. -/
def process_directory (table : List Row) (base_dir : String)
    (files : List SrcFile) (truncate : Bool) : ProcState :=
  let archive_dir := pyReplace base_dir "raw" "archive"
  files.foldl (processFile truncate archive_dir) ⟨table, [], 0⟩

/-!
Embedding of api_client.py (class APIClient).

The construction timestamp datetime.now() is sampled once in
the constructor; year, month, day and the strftime second-resolution
string derived from it are the only parts the client ever uses.
-/

/-- The construction-time clock sample of an APIClient: the calendar
fields of self.now consumed by the path construction. -/
structure Timestamp where
  year : Nat
  month : Nat
  day : Nat
  hour : Nat
  minute : Nat
  second : Nat
  deriving DecidableEq

/-- The strftime rendering with pattern year_month_day_hour_minute_second
(four-digit year, two-digit zero-padded remaining fields) computed once
in the constructor and stored as self.timestamp. -/
def tsString (t : Timestamp) : String :=
  toString t.year ++ "_" ++ zfill2 t.month ++ "_" ++ zfill2 t.day ++ "_" ++
    zfill2 t.hour ++ "_" ++ zfill2 t.minute ++ "_" ++ zfill2 t.second

/-- The file path produced by APIClient.save_response_to_file: the data
directory, then year, zero-padded month and day directories, then the
timestamp string with a .json extension.  Note the payload never enters
the name. -/
def save_response_path (data_directory : String) (t : Timestamp) : String :=
  pathJoin (pathJoin (pathJoin (pathJoin data_directory
    (toString t.year)) (zfill2 t.month)) (zfill2 t.day))
    (tsString t ++ ".json")

/-- The retryable status codes, the status_forcelist of the Retry
strategy installed by APIClient._setup_session. -/
def status_forcelist : List Nat :=
  [429, 500, 502, 503, 504]

/-- Whether a status code triggers a retry under the installed
strategy. -/
def retryable (status : Nat) : Bool :=
  status ∈ status_forcelist

/-- One HTTP response as the session delivers it: the status code and
the JSON parse result of the body (none when response.json() would
raise a ValueError). -/
structure Response where
  status : Nat
  body : Option JsonValue

/-- The session.get call through the mounted HTTPAdapter: responses is
the sequence the server would return on successive attempts, retriesLeft
the remaining total of the Retry strategy (initialised to max_retries).
A retryable status consumes one retry and moves to the next attempt;
with no retry left it raises (MaxRetryError, surfaced by requests as a
RetryError, a RequestException), modelled as none.  A non-retryable
status is delivered to the caller as is.  An exhausted sequence is a
connection failure, also a RequestException. -/
def sessionGet : List Response → Nat → Option Response
  | [], _ => none
  | r :: rest, retriesLeft =>
      if retryable r.status then
        match retriesLeft with
        | 0 => none
        | n + 1 => sessionGet rest n
      else some r

/-- The Python exception classes relevant to the client, coarsened to
the handlers that appear in the sources.  Every one of these derives
from Exception. -/
inductive PyExn where
  | requestException
  | valueError
  | keyError
  | otherError
  deriving DecidableEq

/-- The try block of APIClient.get_data_json: format the URL (urlFmt is
the outcome of url.format applied to the kwargs; a missing placeholder
argument raises), issue the GET through the retrying session, call
raise_for_status (an HTTPError, a RequestException subclass, for any
4xx or 5xx delivered status), then decode the body. -/
def get_data_json_try (urlFmt : Except PyExn String)
    (responses : List Response) (max_retries : Nat) :
    Except PyExn JsonValue :=
  match urlFmt with
  | .error e => .error e
  | .ok _ =>
      match sessionGet responses max_retries with
      | none => .error .requestException
      | some r =>
          if 400 ≤ r.status ∧ r.status < 600 then .error .requestException
          else
            match r.body with
            | none => .error .valueError
            | some v => .ok v

/-- Whether one of the three except clauses of get_data_json
(RequestException, ValueError, and the final catch-all Exception)
handles an exception.  The catch-all makes this total over every
Exception subclass. -/
def getDataJsonHandles (e : PyExn) : Bool :=
  match e with
  | .requestException => true
  | .valueError => true
  | _ => true

/-- APIClient.get_data_json: the try block with its handlers, each of
which logs and returns None.  An unhandled exception would propagate as
an error value; the conjunction of the handlers never lets one. -/
def get_data_json (urlFmt : Except PyExn String)
    (responses : List Response) (max_retries : Nat) :
    Except PyExn (Option JsonValue) :=
  match get_data_json_try urlFmt responses max_retries with
  | .ok v => .ok (some v)
  | .error e => if getDataJsonHandles e then .ok none else .error e

/-!
Heap model for APIClient.__init__ (claim about the caller's headers
dict).  Python dicts are mutable objects reached through references; a
tiny heap of dicts makes the copy explicit.
-/

/-- A Python string-to-string dict: ordered key-value pairs with unique
keys, insertion order kept. -/
abbrev PyDict := List (String × String)

/-- Assignment of a key in a Python dict: an existing key is updated in
place keeping its position, a new key is appended. -/
def dictSet (d : PyDict) (k v : String) : PyDict :=
  if d.any (fun p => p.1 == k) then
    d.map (fun p => if p.1 == k then (k, v) else p)
  else d ++ [(k, v)]

/-- Lookup in a Python dict. -/
def dictGet (d : PyDict) (k : String) : Option String :=
  d.lookup k

/-- A heap of dict objects; a reference is an index. -/
structure DictHeap where
  dicts : List PyDict

/-- The dict object a reference points to. -/
def DictHeap.deref (h : DictHeap) (r : Nat) : Option PyDict :=
  h.dicts.get? r

/-- The header handling of APIClient.__init__: self.headers receives a
copy of the headers argument (a fresh object appended to the heap), and
the x-api-key entry is then assigned on that fresh object.  Returns the
updated heap and the reference held in self.headers. -/
def apiClientInitHeaders (h : DictHeap) (headersRef : Nat)
    (api_key : String) : DictHeap × Nat :=
  let callerDict := (h.deref headersRef).getD []
  let selfDict := dictSet callerDict "x-api-key" api_key
  (⟨h.dicts ++ [selfDict]⟩, h.dicts.length)

/-!
Embedding of doc_api.py (class DOCAPIClient, get_doc and the
campsites-details driver).
-/

/-- Python truthiness of a JSON value: None, False, zero, the empty
string, list and dict are falsy. -/
def jsonFalsy : JsonValue → Bool
  | .null => true
  | .bool b => !b
  | .num n => n == 0
  | .str s => s == ""
  | .arr xs => xs.isEmpty
  | .obj fs => fs.isEmpty

/-- Python truthiness of an optional string: None and the empty string
are falsy. -/
def strFalsy : Option String → Bool
  | none => true
  | some s => s == ""

/-- The world DOCAPIClient runs against: whether the config file
exists, the yaml.safe_load outcome for it (none models a YAMLError),
the process environment, whether the url.format call of the fetch
succeeds, the responses the server would deliver, whether the file
write of save_response_to_file succeeds, and the construction-time
clock sample. -/
structure DocWorld where
  configExists : Bool
  configYaml : Option (List (String × JsonValue))
  env : List (String × String)
  urlFmtOk : Bool
  responses : List Response
  saveOk : Bool
  now : Timestamp

/-- DOCAPIClient._load_config: a missing file, a YAMLError, a missing
doc section and a missing data_directory key each end in the empty
config dict (the last three caught by the except clause for YAMLError
and KeyError), with self.data_directory left unset (none).  On success
the doc section is returned and data_directory is set. -/
def docApiLoadConfig (w : DocWorld) : JsonValue × Option JsonValue :=
  if !w.configExists then (.obj [], none)
  else
    match w.configYaml with
    | none => (.obj [], none)
    | some config =>
        match config.lookup "doc" with
        | none => (.obj [], none)
        | some docCfg =>
            match config.lookup "data_directory" with
            | none => (.obj [], none)
            | some dd => (docCfg, some dd)

/-- DOCAPIClient._get_api_key: reads the api_key_env_var entry of the
loaded config with a bare subscript (a missing key raises a KeyError,
not caught here), then os.getenv on it; an absent variable gives
None. -/
def docApiGetApiKey (config : JsonValue) (env : List (String × String)) :
    Except PyExn (Option String) :=
  match jsonLookup config "api_key_env_var" with
  | none => .error .keyError
  | some (.str name) => .ok (env.lookup name)
  | some _ => .error .otherError

/-- The parameters of the APIClient built by DOCAPIClient._get_client
that the rest of the pipeline consumes. -/
structure DocClientParams where
  data_directory : String
  max_retries : Nat

/-- DOCAPIClient._get_client: a falsy config or api key gives None; a
missing urls table or url name gives None; otherwise the client is
built from the url, a data directory of the form
data_directory/doc/url_name, the headers entry (a bare subscript, so a
missing headers key raises), and max_retries defaulting to 3.  Reading
self.data_directory when _load_config never set it raises an
AttributeError. -/
def docApiGetClient (config : JsonValue) (dataDir : Option JsonValue)
    (api_key : Option String) (url_name : String) :
    Except PyExn (Option DocClientParams) :=
  if jsonFalsy config || strFalsy api_key then .ok none
  else
    match jsonLookup config "urls" with
    | none => .ok none
    | some urls =>
        if !(jsonHasKey urls url_name) then .ok none
        else
          match dataDir with
          | none => .error .otherError
          | some (.str dd) =>
              match jsonLookup config "headers" with
              | none => .error .keyError
              | some _ =>
                  let maxr : Nat :=
                    match jsonLookup config "max_retries" with
                    | some (.num n) => n.toNat
                    | _ => 3
                  .ok (some ⟨dd ++ "/" ++ "doc" ++ "/" ++ url_name, maxr⟩)
          | some _ => .error .otherError

/-- The function get_doc: build the client, and if it is None return
None; otherwise fetch, and on a fetched payload save it and return the
saved path (None when the save failed); on a failed fetch return None.
Every exception raised inside is caught by the enclosing except
Exception clause, which returns None.  The second component counts the
fetch attempts (calls of get_data_json) the run performed. -/
def get_doc (w : DocWorld) (url_name : String) : Option String × Nat :=
  let (config, dataDir) := docApiLoadConfig w
  match docApiGetApiKey config w.env with
  | .error _ => (none, 0)
  | .ok api_key =>
      match docApiGetClient config dataDir api_key url_name with
      | .error _ => (none, 0)
      | .ok none => (none, 0)
      | .ok (some cp) =>
          let urlFmt : Except PyExn String :=
            if w.urlFmtOk then .ok "" else .error .keyError
          match get_data_json urlFmt w.responses cp.max_retries with
          | .error _ => (none, 1)
          | .ok none => (none, 1)
          | .ok (some _) =>
              if w.saveOk then
                (some (save_response_path cp.data_directory w.now), 1)
              else (none, 1)

/-- The function get_doc_campsite_detail: delegates to get_doc with the
fixed url name campsites_detail; the campsite identifier is passed only
as a format argument for the URL template and reaches nothing else. -/
def get_doc_campsite_detail (w : DocWorld) (campsite_id : String) :
    Option String × Nat :=
  get_doc w "campsites_detail"

/-- The extraction loop of process_campsites_details over one list of
campsite elements: the assetId value of every element carrying that
key, in order, duplicates kept. -/
def collectAssetIds (items : List JsonValue) : List JsonValue :=
  items.filterMap (fun c => jsonLookup c "assetId")

/-- The asset-id extraction of process_campsites_details: a JSON array
is scanned directly; a JSON object is scanned through its data entry
(modelled for payloads whose data entry is an array — any other shape
ends in the catch-all handler of the function with no id collected);
anything else collects nothing. -/
def extract_asset_ids (campsites_data : JsonValue) : List JsonValue :=
  match campsites_data with
  | .arr items => collectAssetIds items
  | .obj _ =>
      match jsonLookup campsites_data "data" with
      | some (.arr items) => collectAssetIds items
      | _ => []
  | _ => []

/-- The detail-fetch loop of process_campsites_details: one call of
get_doc_campsite_detail per extracted id, in order, accumulating the
ids it was issued for. -/
def detailFetchLoop : List JsonValue → List JsonValue → List JsonValue
  | [], issued => issued
  | id :: rest, issued => detailFetchLoop rest (issued ++ [id])

/-- The function process_campsites_details, observed through the list
of identifiers it issues a detail fetch for: every extracted assetId of
the listing payload, in listing order.  No set of already-loaded
identifiers is read anywhere in the function. -/
def process_campsites_details (campsites_data : JsonValue) : List JsonValue :=
  detailFetchLoop (extract_asset_ids campsites_data) []

/-- Specification-side definition, following the words of section 4.3
of the spec: compute_missing(listing_payload, loaded_ids) is the set
difference of the listing identifiers and the already-loaded ones,
written over string identifiers. -/
def compute_missing (listing_ids loaded_ids : List String) : List String :=
  listing_ids.filter (fun i => !(loaded_ids.contains i))

/-- Predicate selecting the walked files whose load commits and whose
archive move succeeds. -/
def loadedAndArchived (f : SrcFile) : Bool :=
  strEndsWith f.name ".json" && f.content.isSome && f.archiveOk

/-!
Helper lemmas shared by the claim theorems.
-/

/-- The accumulating detail-fetch loop issues exactly the ids it was
given, after the accumulator. -/
theorem detailFetchLoop_eq (ids : List JsonValue) :
    ∀ issued, detailFetchLoop ids issued = issued ++ ids := by
  induction ids with
  | nil => intro issued; simp [detailFetchLoop]
  | cons id rest ih =>
      intro issued
      simp [detailFetchLoop, ih]

/-- The archive moves performed by the per-file loop of
process_directory: one move per file whose name has the json extension,
whose content parses and whose move succeeds, to the archive directory
joined with the file's basename. -/
theorem processFold_archived (tr : Bool) (ad : String) (files : List SrcFile) :
    ∀ st : ProcState,
      (files.foldl (processFile tr ad) st).archived =
        st.archived ++ (files.filter loadedAndArchived).map
          (fun f => (f.path, archive_json_file f.path ad)) := by
  induction files with
  | nil => intro st; simp
  | cons f rest ih =>
      intro st
      by_cases hjson : strEndsWith f.name ".json" = true
      · cases hc : f.content with
        | none =>
            have hstep : processFile tr ad st f = st := by
              simp [processFile, hjson, hc, load_json_to_table]
            have hflt : loadedAndArchived f = false := by
              simp [loadedAndArchived, hc]
            simp [List.foldl_cons, hstep, List.filter_cons, hflt, ih]
        | some v =>
            by_cases ha : f.archiveOk = true
            · have hstep : processFile tr ad st f =
                  { table := (if tr then [] else st.table) ++ [⟨f.path, v⟩]
                    archived := st.archived ++ [(f.path, archive_json_file f.path ad)]
                    truncations := st.truncations + (if tr then 1 else 0) } := by
                simp [processFile, hjson, hc, ha, load_json_to_table]
              have hflt : loadedAndArchived f = true := by
                simp [loadedAndArchived, hjson, hc, ha]
              simp [List.foldl_cons, hstep, List.filter_cons, hflt, ih]
            · have hstep : processFile tr ad st f =
                  { table := (if tr then [] else st.table) ++ [⟨f.path, v⟩]
                    archived := st.archived
                    truncations := st.truncations + (if tr then 1 else 0) } := by
                simp [processFile, hjson, hc, ha, load_json_to_table]
              have hflt : loadedAndArchived f = false := by
                simp [loadedAndArchived, ha]
              simp [List.foldl_cons, hstep, List.filter_cons, hflt, ih]
      · have hstep : processFile tr ad st f = st := by
          simp [processFile, hjson]
        have hflt : loadedAndArchived f = false := by
          simp [loadedAndArchived, hjson]
        simp [List.foldl_cons, hstep, List.filter_cons, hflt, ih]

/-- A file with unparseable content leaves the loop state untouched:
the transaction is rolled back, nothing is truncated, nothing is
archived. -/
theorem processFile_decode_failure (tr : Bool) (ad : String)
    (st : ProcState) (f : SrcFile) (h : f.content = none) :
    processFile tr ad st f = st := by
  by_cases hjson : strEndsWith f.name ".json" = true
  · simp [processFile, hjson, h, load_json_to_table]
  · simp [processFile, hjson]

/-- Lookup in the update-in-place branch of dictSet, for the assigned
key: some entry carries the key, and the map rewrites it to the new
value. -/
theorem lookup_mapSet_self (k v : String) (d : PyDict)
    (hany : d.any (fun p => p.1 == k) = true) :
    List.lookup k (d.map (fun p => if p.1 == k then (k, v) else p)) =
      some v := by
  induction d with
  | nil => simp at hany
  | cons p rest ih =>
      obtain ⟨k0, v0⟩ := p
      rw [List.map_cons]
      by_cases hk : k0 = k
      · have hcond : ((k0 == k) = true) := by simp [hk]
        rw [if_pos hcond]
        simp
      · have hcond : ¬((k0 == k) = true) := by simp [hk]
        have h1 : (k0 == k) = false := by simp [hk]
        have h2 : (k == k0) = false := by simp [Ne.symm hk]
        have hrest : rest.any (fun p => p.1 == k) = true := by
          simpa [h1] using hany
        rw [if_neg hcond, List.lookup_cons]
        simp only [h2]
        exact ih hrest

/-- Lookup in the append branch of dictSet, for the assigned key: no
earlier entry carries the key, so the lookup reaches the appended
pair. -/
theorem lookup_appendSet_self (k v : String) (d : PyDict)
    (hnone : d.any (fun p => p.1 == k) = false) :
    List.lookup k (d ++ [(k, v)]) = some v := by
  have hd : List.lookup k d = none := by
    rw [List.lookup_eq_none_iff]
    intro p hp
    have hall := List.any_eq_false.mp hnone p hp
    have hne : p.1 ≠ k := by simpa using hall
    simpa [bne_iff_ne] using Ne.symm hne
  rw [List.lookup_append, hd]
  simp

/-- Lookup after an assignment, same key: the assigned value. -/
theorem dictGet_dictSet_self (d : PyDict) (k v : String) :
    dictGet (dictSet d k v) k = some v := by
  unfold dictGet dictSet
  by_cases hany : d.any (fun p => p.1 == k) = true
  · simpa [hany] using lookup_mapSet_self k v d hany
  · have hnone : d.any (fun p => p.1 == k) = false :=
      Bool.eq_false_iff.mpr hany
    simpa [hnone] using lookup_appendSet_self k v d hnone

/-- Lookup in the update-in-place branch of dictSet, for a different
key: untouched. -/
theorem lookup_mapSet_ne (k v k' : String) (h : k' ≠ k) (d : PyDict) :
    List.lookup k' (d.map (fun p => if p.1 == k then (k, v) else p)) =
      List.lookup k' d := by
  induction d with
  | nil => simp
  | cons p rest ih =>
      obtain ⟨k0, v0⟩ := p
      rw [List.map_cons]
      by_cases hk : k0 = k
      · have hcond : ((k0 == k) = true) := by simp [hk]
        rw [if_pos hcond, List.lookup_cons, List.lookup_cons]
        have h2 : (k' == k) = false := by simp [h]
        have h3 : (k' == k0) = false := by simp [hk ▸ h]
        simp only [h2, h3]
        exact ih
      · have hcond : ¬((k0 == k) = true) := by simp [hk]
        rw [if_neg hcond, List.lookup_cons, List.lookup_cons]
        cases hb : (k' == k0)
        · simp only [hb]
          exact ih
        · simp only [hb]

/-- Lookup after appending a pair with a different key: untouched. -/
theorem lookup_appendSet_ne (k v k' : String) (h : k' ≠ k) (d : PyDict) :
    List.lookup k' (d ++ [(k, v)]) = List.lookup k' d := by
  rw [List.lookup_append]
  have h2 : (k' == k) = false := by simp [h]
  cases hd : List.lookup k' d with
  | none => simp [List.lookup_cons, h2]
  | some w => simp

/-- Lookup after an assignment, different key: unchanged. -/
theorem dictGet_dictSet_ne (d : PyDict) (k v k' : String) (h : k' ≠ k) :
    dictGet (dictSet d k v) k' = dictGet d k' := by
  unfold dictGet dictSet
  by_cases hany : d.any (fun p => p.1 == k) = true
  · simpa [hany] using lookup_mapSet_ne k v k' h d
  · have hnone : d.any (fun p => p.1 == k) = false :=
      Bool.eq_false_iff.mpr hany
    simpa [hnone] using lookup_appendSet_ne k v k' h d



/-!
Claim theorems.
-/

/-- C1.  The claim says the truncation fires exactly once per
process_directory call and the final row count equals the number of
valid JSON files.  The code passes the truncate flag unchanged into
every load_json_to_table call, so on a directory of two valid JSON
files with truncate set the TRUNCATE statement runs twice and only the
last file's row survives: row count 1, not 2. -/
theorem C1_truncate_fires_per_valid_file :
    (process_directory [] "data/raw/doc"
      [⟨"data/raw/doc", "a.json", some (.str "x"), true⟩,
       ⟨"data/raw/doc", "b.json", some (.str "y"), true⟩] true).truncations = 2 ∧
    (process_directory [] "data/raw/doc"
      [⟨"data/raw/doc", "a.json", some (.str "x"), true⟩,
       ⟨"data/raw/doc", "b.json", some (.str "y"), true⟩] true).table.map
        Row.file_name = ["data/raw/doc/b.json"] := by
  constructor
  · decide
  · decide

/-- C2 counterexample.  On the listing of assets A and B with A already
loaded, process_campsites_details issues fetches for both A and B: it
fetches an identifier present in the loaded set, and its output is not
the set difference, which would be the singleton B. -/
theorem C2_counterexample :
    process_campsites_details
        (.arr [.obj [("assetId", .str "A")], .obj [("assetId", .str "B")]]) =
      [.str "A", .str "B"] ∧
    JsonValue.str "A" ∈ [JsonValue.str "A"] ∧
    JsonValue.str "A" ∈ process_campsites_details
        (.arr [.obj [("assetId", .str "A")], .obj [("assetId", .str "B")]]) ∧
    compute_missing ["A", "B"] ["A"] = ["B"] ∧
    process_campsites_details
        (.arr [.obj [("assetId", .str "A")], .obj [("assetId", .str "B")]]) ≠
      [.str "B"] := by
  have hps : process_campsites_details
      (.arr [.obj [("assetId", .str "A")], .obj [("assetId", .str "B")]]) =
      [JsonValue.str "A", JsonValue.str "B"] := rfl
  refine ⟨hps, ?_, ?_, by decide, ?_⟩
  · simp
  · rw [hps]; simp
  · rw [hps]
    intro hcon
    simp at hcon

/-- C2 (amended).  The detail-fetch selection of
process_campsites_details is the full list of assetId values extracted
from the listing, in order; no loaded-identifier set is consulted, so
an identifier already loaded is still fetched whenever it appears in
the listing.  With an empty loaded set this coincides with the spec's
delta (all listing ids). -/
theorem C2_all_listing_ids_fetched (payload : JsonValue)
    (loaded : List JsonValue) (id : JsonValue) :
    process_campsites_details payload = extract_asset_ids payload ∧
    (id ∈ loaded → id ∈ extract_asset_ids payload →
      id ∈ process_campsites_details payload) := by
  have h : process_campsites_details payload = extract_asset_ids payload := by
    unfold process_campsites_details
    simpa using detailFetchLoop_eq (extract_asset_ids payload) []
  exact ⟨h, fun _ hmem => h ▸ hmem⟩

/-- C2 witness: the amended theorem applied to a concrete listing
holding the single already-loaded asset A. -/
theorem C2_witness :
    JsonValue.str "A" ∈
      process_campsites_details (.arr [.obj [("assetId", .str "A")]]) :=
  (C2_all_listing_ids_fetched (.arr [.obj [("assetId", .str "A")]])
    [JsonValue.str "A"] (JsonValue.str "A")).2 (by simp)
    (by simp [extract_asset_ids, collectAssetIds, jsonLookup])

/-- C3 counterexample.  The created table has three columns named id,
file_name and data: none of the claimed file_path, loaded_at, raw_data
columns exists, and the INSERT populates none of them. -/
theorem C3_counterexample :
    "file_path" ∉ create_tables_columns.map Column.name ∧
    "loaded_at" ∉ create_tables_columns.map Column.name ∧
    "raw_data" ∉ create_tables_columns.map Column.name ∧
    (create_tables_columns.map Column.name).length = 3 ∧
    "file_path" ∉ insert_columns ∧
    "raw_data" ∉ insert_columns := by
  refine ⟨?_, ?_, ?_, ?_, ?_, ?_⟩ <;> decide

/-- C3 (amended).  The table is created with the three columns id
(serial primary key), file_name (varchar 255) and data (jsonb); the
INSERT of every successful load populates exactly the file_name and
data columns, both of which exist in the created schema, binding the
file's full path to file_name and its parsed payload to data (the
appended row). -/
theorem C3_schema_and_insert (table : List Row) (p : String)
    (v : JsonValue) (tr : Bool) :
    create_tables_columns.map Column.name = ["id", "file_name", "data"] ∧
    insert_columns.all
      (fun c => (create_tables_columns.map Column.name).contains c) = true ∧
    ∃ t k, load_json_to_table table p (some v) tr = .ok (t, k) ∧
      t.getLast? = some ⟨p, v⟩ := by
  refine ⟨rfl, by decide, (if tr then [] else table) ++ [Row.mk p v],
    if tr then 1 else 0, ?_, ?_⟩
  · unfold load_json_to_table
    rfl
  · exact List.getLast?_concat _

/-- C3 witness: the amended theorem applied at a concrete table, path
and payload. -/
theorem C3_witness :
    create_tables_columns.map Column.name = ["id", "file_name", "data"] ∧
    insert_columns.all
      (fun c => (create_tables_columns.map Column.name).contains c) = true ∧
    ∃ t k, load_json_to_table [] "data/raw/doc/a.json" (some (.str "x")) true =
        .ok (t, k) ∧ t.getLast? = some ⟨"data/raw/doc/a.json", .str "x"⟩ :=
  C3_schema_and_insert [] "data/raw/doc/a.json" (.str "x") true

/-- C4 counterexample.  A file nested in a dated subtree under base_dir
is archived at the flattened destination (the archive directory joined
with its basename), not at the location with its relative path
preserved: the move drops the year, month and day segments. -/
theorem C4_counterexample :
    (process_directory [] "data/raw/doc"
      [⟨"data/raw/doc/2025/04/30", "a.json", some (.str "x"), true⟩]
      false).archived =
      [("data/raw/doc/2025/04/30/a.json", "data/archive/doc/a.json")] ∧
    "data/archive/doc/a.json" ≠ "data/archive/doc/2025/04/30/a.json" := by
  constructor
  · decide
  · decide

/-- C4 (amended).  Every successfully loaded file is moved to the
directory obtained from base_dir by replacing every occurrence of the
substring raw with the substring archive, joined with the file's
basename: the file's relative subpath below base_dir is discarded, so
only files lying directly in base_dir keep their relative location. -/
theorem C4_archive_destination (table : List Row) (base_dir : String)
    (files : List SrcFile) (truncate : Bool) :
    (process_directory table base_dir files truncate).archived =
      (files.filter loadedAndArchived).map
        (fun f => (f.path,
          pathJoin (pyReplace base_dir "raw" "archive") (pyBasename f.path))) := by
  unfold process_directory
  have h := processFold_archived truncate
    (pyReplace base_dir "raw" "archive") files ⟨table, [], 0⟩
  simpa [archive_json_file] using h

/-- C4 witness: the amended theorem applied to one nested file. -/
theorem C4_witness :
    (process_directory [] "data/raw/doc"
      [⟨"data/raw/doc/2025/04/30", "a.json", some (.str "x"), true⟩]
      false).archived =
      ([(⟨"data/raw/doc/2025/04/30", "a.json", some (.str "x"), true⟩ :
          SrcFile)].filter loadedAndArchived).map
        (fun f => (f.path,
          pathJoin (pyReplace "data/raw/doc" "raw" "archive")
            (pyBasename f.path))) :=
  C4_archive_destination [] "data/raw/doc"
    [⟨"data/raw/doc/2025/04/30", "a.json", some (.str "x"), true⟩] false

/-- C5.  A file whose bytes are not valid JSON makes
load_json_to_table signal the decode failure with the transaction
rolled back (an error, the table unchanged); the per-file loop then
leaves the whole state untouched: no row, no truncation, no archive
move for that file.  Conversely every move recorded in the archive
list of a process_directory run belongs to a walked json file whose
content parsed (so whose insert committed) and whose move succeeded. -/
theorem C5_decode_failure_rollback_no_archive (table : List Row)
    (p : String) (tr : Bool) (ad : String) (st : ProcState) (f : SrcFile)
    (hf : f.content = none) (base_dir : String) (files : List SrcFile)
    (src dst : String)
    (hmem : (src, dst) ∈ (process_directory table base_dir files tr).archived) :
    load_json_to_table table p none tr = .error .jsonDecode ∧
    processFile tr ad st f = st ∧
    ∃ g ∈ files, g.path = src ∧ strEndsWith g.name ".json" = true ∧
      g.content.isSome = true ∧ g.archiveOk = true := by
  refine ⟨rfl, processFile_decode_failure tr ad st f hf, ?_⟩
  unfold process_directory at hmem
  rw [processFold_archived tr (pyReplace base_dir "raw" "archive") files
    ⟨table, [], 0⟩] at hmem
  simp only [List.nil_append, List.mem_map, List.mem_filter] at hmem
  obtain ⟨g, ⟨hgmem, hga⟩, hgeq⟩ := hmem
  have hsrc : g.path = src := congrArg Prod.fst hgeq
  have hla := hga
  unfold loadedAndArchived at hla
  rw [Bool.and_eq_true, Bool.and_eq_true] at hla
  exact ⟨g, hgmem, hsrc, hla.1.1, hla.1.2, hla.2⟩

/-- C5 witness: the theorem applied to a concrete invalid file and a
concrete run whose archive list holds one move. -/
theorem C5_witness :
    load_json_to_table [] "data/raw/doc/bad.json" none true =
        .error .jsonDecode ∧
    processFile true "data/archive/doc" ⟨[], [], 0⟩
        ⟨"data/raw/doc", "bad.json", none, true⟩ = ⟨[], [], 0⟩ ∧
    ∃ g ∈ [(⟨"data/raw/doc", "ok.json", some (.str "x"), true⟩ : SrcFile)],
      g.path = "data/raw/doc/ok.json" ∧
      strEndsWith g.name ".json" = true ∧
      g.content.isSome = true ∧ g.archiveOk = true :=
  C5_decode_failure_rollback_no_archive [] "data/raw/doc/bad.json" true
    "data/archive/doc" ⟨[], [], 0⟩ ⟨"data/raw/doc", "bad.json", none, true⟩
    rfl "data/raw/doc"
    [⟨"data/raw/doc", "ok.json", some (.str "x"), true⟩]
    "data/raw/doc/ok.json" "data/archive/doc/ok.json" (by decide)

/-- C6 counterexample.  Two detail fetches for the distinct campsite
identifiers A and B, run against the same world (in particular the same
construction second), both save to the very same path: the filename is
the construction timestamp, not an identifier-qualified name of the
form dataset_identifier.json, so the second save silently overwrites
the first. -/
theorem C6_counterexample :
    ("A" : String) ≠ "B" ∧
    get_doc_campsite_detail
      ⟨true,
       some [("data_directory", .str "api/data"),
             ("doc", .obj [("api_key_env_var", .str "DOC_API_KEY"),
                           ("urls", .obj [("campsites_detail", .str "u")]),
                           ("headers", .obj [])])],
       [("DOC_API_KEY", "k")], true, [⟨200, some (.obj [])⟩], true,
       ⟨2025, 4, 30, 15, 20, 6⟩⟩ "A" =
      (some "api/data/doc/campsites_detail/2025/04/30/2025_04_30_15_20_06.json",
        1) ∧
    get_doc_campsite_detail
      ⟨true,
       some [("data_directory", .str "api/data"),
             ("doc", .obj [("api_key_env_var", .str "DOC_API_KEY"),
                           ("urls", .obj [("campsites_detail", .str "u")]),
                           ("headers", .obj [])])],
       [("DOC_API_KEY", "k")], true, [⟨200, some (.obj [])⟩], true,
       ⟨2025, 4, 30, 15, 20, 6⟩⟩ "A" =
      get_doc_campsite_detail
      ⟨true,
       some [("data_directory", .str "api/data"),
             ("doc", .obj [("api_key_env_var", .str "DOC_API_KEY"),
                           ("urls", .obj [("campsites_detail", .str "u")]),
                           ("headers", .obj [])])],
       [("DOC_API_KEY", "k")], true, [⟨200, some (.obj [])⟩], true,
       ⟨2025, 4, 30, 15, 20, 6⟩⟩ "B" := by
  refine ⟨by decide, by decide, rfl⟩

/-- C6 (amended).  Save paths are qualified by the construction
timestamp alone: two saves whose clients carry timestamp strings of
equal length that differ produce distinct paths (whatever their data
directories), while the campsite identifier of a detail fetch never
enters the path, so two detail fetches of the same world for any two
identifiers produce identical results, colliding within one second. -/
theorem C6_timestamp_qualified_names (d d' : String) (t t' : Timestamp)
    (hlen : (tsString t).length = (tsString t').length)
    (hne : tsString t ≠ tsString t')
    (w : DocWorld) (id1 id2 : String) :
    save_response_path d t ≠ save_response_path d' t' ∧
    get_doc_campsite_detail w id1 = get_doc_campsite_detail w id2 := by
  refine ⟨?_, rfl⟩
  intro heq
  apply hne
  have hdata := congrArg String.data heq
  unfold save_response_path pathJoin at hdata
  simp only [String.data_append] at hdata
  have hblen : ((tsString t).data ++ ".json".data).length =
      ((tsString t').data ++ ".json".data).length := by
    simp only [List.length_append]
    have hl : (tsString t).data.length = (tsString t').data.length := hlen
    omega
  obtain ⟨hA, hB⟩ := List.append_inj' hdata hblen
  obtain ⟨hts, hjs⟩ := List.append_inj hB hlen
  exact String.ext hts

/-- C6 witness: the amended theorem applied to two timestamps one
second apart. -/
theorem C6_witness :
    save_response_path "api/data/doc/campsites_detail"
        ⟨2025, 4, 30, 15, 20, 6⟩ ≠
      save_response_path "api/data/doc/campsites_detail"
        ⟨2025, 4, 30, 15, 20, 7⟩ ∧
    get_doc_campsite_detail
        ⟨true, none, [], true, [], true, ⟨2025, 4, 30, 15, 20, 6⟩⟩ "A" =
      get_doc_campsite_detail
        ⟨true, none, [], true, [], true, ⟨2025, 4, 30, 15, 20, 6⟩⟩ "B" :=
  C6_timestamp_qualified_names "api/data/doc/campsites_detail"
    "api/data/doc/campsites_detail" ⟨2025, 4, 30, 15, 20, 6⟩
    ⟨2025, 4, 30, 15, 20, 7⟩ (by decide) (by decide)
    ⟨true, none, [], true, [], true, ⟨2025, 4, 30, 15, 20, 6⟩⟩ "A" "B"

/-- C7.  The installed retry strategy retries exactly on the status
codes 429, 500, 502, 503 and 504; a response with any other status is
delivered immediately, whatever retries remain (in particular no other
4xx is retried, and a JSON-decode failure of a delivered body is not
retried either, both ending in the failure value None).  With
max_retries three, three 503 responses followed by a 200 succeed with
the 200 body, while a fourth consecutive 503 exhausts the retries and
yields the failure value None. -/
theorem C7_retry_policy :
    (∀ s, retryable s = true ↔
      (s = 429 ∨ s = 500 ∨ s = 502 ∨ s = 503 ∨ s = 504)) ∧
    (∀ (r : Response) (rest : List Response) (n : Nat),
      retryable r.status = false → sessionGet (r :: rest) n = some r) ∧
    (∀ (b1 b2 b3 : Option JsonValue) (v : JsonValue) (u : String),
      get_data_json (.ok u)
        [⟨503, b1⟩, ⟨503, b2⟩, ⟨503, b3⟩, ⟨200, some v⟩] 3 = .ok (some v)) ∧
    (∀ (b1 b2 b3 b4 : Option JsonValue) (rest : List Response) (u : String),
      get_data_json (.ok u)
        ([⟨503, b1⟩, ⟨503, b2⟩, ⟨503, b3⟩, ⟨503, b4⟩] ++ rest) 3 = .ok none) ∧
    (∀ (rest : List Response) (n : Nat) (u : String) (body : Option JsonValue),
      get_data_json (.ok u) (⟨404, body⟩ :: rest) n = .ok none) ∧
    (∀ (rest : List Response) (n : Nat) (u : String),
      get_data_json (.ok u) (⟨200, none⟩ :: rest) n = .ok none) := by
  refine ⟨?_, ?_, fun b1 b2 b3 v u => rfl, fun b1 b2 b3 b4 rest u => rfl,
    fun rest n u body => rfl, fun rest n u => rfl⟩
  · intro s
    simp [retryable, status_forcelist]
  · intro r rest n h
    simp [sessionGet, h]

/-- C7 witness: the no-retry clause of the theorem applied to a 404
response with three retries remaining. -/
theorem C7_witness :
    sessionGet [⟨404, none⟩] 3 = some ⟨404, none⟩ :=
  C7_retry_policy.2.1 ⟨404, none⟩ [] 3 (by decide)

/-- C8.  Every exception class that the body of get_data_json can
raise is handled by one of its three except clauses (the last one
catches every Exception), so for every formatted-URL outcome, response
sequence and retry budget the call returns a value, never propagates
an exception: either the failure value None, or the decoded JSON body
of a delivered response whose status passed raise_for_status.  The
function threads no filesystem or configuration state: its value is a
function of the URL outcome, the responses and the retry budget
alone. -/
theorem C8_get_data_json_total (urlFmt : Except PyExn String)
    (responses : List Response) (max_retries : Nat) :
    (∀ e : PyExn, getDataJsonHandles e = true) ∧
    ((get_data_json urlFmt responses max_retries = .ok none) ∨
      (∃ (r : Response) (v : JsonValue),
        sessionGet responses max_retries = some r ∧
        ¬(400 ≤ r.status ∧ r.status < 600) ∧ r.body = some v ∧
        get_data_json urlFmt responses max_retries = .ok (some v))) := by
  refine ⟨fun e => by cases e <;> rfl, ?_⟩
  cases urlFmt with
  | error e =>
      left
      cases e <;> rfl
  | ok u =>
      cases hs : sessionGet responses max_retries with
      | none =>
          left
          simp [get_data_json, get_data_json_try, hs, getDataJsonHandles]
      | some r =>
          by_cases hst : 400 ≤ r.status ∧ r.status < 600
          · left
            simp [get_data_json, get_data_json_try, hs, hst, getDataJsonHandles]
          · cases hb : r.body with
            | none =>
                left
                simp [get_data_json, get_data_json_try, hs, hst, hb,
                  getDataJsonHandles]
            | some v =>
                right
                exact ⟨r, v, rfl, hst, hb, by
                  simp [get_data_json, get_data_json_try, hs, hst, hb]⟩

/-- C8 witness: the theorem applied to a delivered 200 response with a
decodable body. -/
theorem C8_witness :
    (∀ e : PyExn, getDataJsonHandles e = true) ∧
    ((get_data_json (.ok "u") [⟨200, some (.str "x")⟩] 3 = .ok none) ∨
      (∃ (r : Response) (v : JsonValue),
        sessionGet [⟨200, some (.str "x")⟩] 3 = some r ∧
        ¬(400 ≤ r.status ∧ r.status < 600) ∧ r.body = some v ∧
        get_data_json (.ok "u") [⟨200, some (.str "x")⟩] 3 = .ok (some v))) :=
  C8_get_data_json_total (.ok "u") [⟨200, some (.str "x")⟩] 3

/-- C9.  For every configuration-loading failure — the config file
missing, its YAML unparseable, the doc section missing, or the
API-key environment variable named by the config absent from the
environment — get_doc returns the failure value None and performs no
fetch attempt: the degraded client state (or the exception raised
while building it, swallowed by the enclosing handler) short-circuits
the call. -/
theorem C9_config_failure_returns_none (w : DocWorld) (url_name : String)
    (h : w.configExists = false ∨ w.configYaml = none ∨
      (∃ cfg, w.configYaml = some cfg ∧ cfg.lookup "doc" = none) ∨
      (∃ cfg docCfg keyName, w.configYaml = some cfg ∧
        cfg.lookup "doc" = some docCfg ∧
        jsonLookup docCfg "api_key_env_var" = some (.str keyName) ∧
        w.env.lookup keyName = none)) :
    get_doc w url_name = (none, 0) := by
  rcases h with hce | hy | ⟨cfg, hy, hdoc⟩ | ⟨cfg, docCfg, keyName, hy, hdoc, hvar, henv⟩
  · simp [get_doc, docApiLoadConfig, docApiGetApiKey, jsonLookup, hce]
  · cases hce : w.configExists
    · simp [get_doc, docApiLoadConfig, docApiGetApiKey, jsonLookup, hce]
    · simp [get_doc, docApiLoadConfig, docApiGetApiKey, jsonLookup, hce, hy]
  · cases hce : w.configExists
    · simp [get_doc, docApiLoadConfig, docApiGetApiKey, jsonLookup, hce]
    · simp [get_doc, docApiLoadConfig, docApiGetApiKey, jsonLookup, hce, hy,
        hdoc]
  · cases hce : w.configExists
    · simp [get_doc, docApiLoadConfig, docApiGetApiKey, jsonLookup, hce]
    · cases hdd : cfg.lookup "data_directory" with
      | none =>
          simp [get_doc, docApiLoadConfig, docApiGetApiKey, jsonLookup, hce,
            hy, hdoc, hdd]
      | some dd =>
          simp [get_doc, docApiLoadConfig, docApiGetApiKey, docApiGetClient,
            strFalsy, hce, hy, hdoc, hdd, hvar, henv]

/-- C9 witness: the theorem applied to a world with no config file. -/
theorem C9_witness :
    get_doc ⟨false, none, [], true, [], true, ⟨2025, 4, 30, 15, 20, 6⟩⟩
      "campsites" = (none, 0) :=
  C9_config_failure_returns_none
    ⟨false, none, [], true, [], true, ⟨2025, 4, 30, 15, 20, 6⟩⟩
    "campsites" (Or.inl rfl)

/-- C10.  Constructing an APIClient copies the caller's headers dict
before assigning the x-api-key entry: after construction the caller's
dict object is unchanged on the heap, the client holds a fresh object
(a different reference), and that fresh dict maps x-api-key to the
given key while agreeing with the caller's dict on every other key. -/
theorem C10_headers_copied_not_mutated (h : DictHeap) (r : Nat)
    (api_key : String) (d : PyDict) (hd : h.deref r = some d) :
    (apiClientInitHeaders h r api_key).1.deref r = some d ∧
    (apiClientInitHeaders h r api_key).2 ≠ r ∧
    (apiClientInitHeaders h r api_key).1.deref
        (apiClientInitHeaders h r api_key).2 =
      some (dictSet d "x-api-key" api_key) ∧
    dictGet (dictSet d "x-api-key" api_key) "x-api-key" = some api_key ∧
    ∀ k, k ≠ "x-api-key" →
      dictGet (dictSet d "x-api-key" api_key) k = dictGet d k := by
  have hr : r < h.dicts.length := by
    unfold DictHeap.deref at hd
    exact (List.get?_eq_some.mp hd).1
  have hcaller : (h.deref r).getD [] = d := by
    rw [hd]; rfl
  refine ⟨?_, ?_, ?_, dictGet_dictSet_self d "x-api-key" api_key,
    fun k hk => dictGet_dictSet_ne d "x-api-key" api_key k hk⟩
  · show (h.dicts ++ [dictSet ((h.deref r).getD []) "x-api-key" api_key]).get? r
      = some d
    rw [List.get?_append hr]
    exact hd
  · show h.dicts.length ≠ r
    exact (Nat.ne_of_lt hr).symm
  · show (h.dicts ++ [dictSet ((h.deref r).getD []) "x-api-key" api_key]).get?
        h.dicts.length = some (dictSet d "x-api-key" api_key)
    rw [hcaller]
    exact List.get?_concat_length h.dicts _

/-- C10 witness: the theorem applied to a heap of one dict with one
entry. -/
theorem C10_witness :
    (apiClientInitHeaders ⟨[[("accept", "application/json")]]⟩ 0 "K").1.deref 0 =
      some [("accept", "application/json")] ∧
    (apiClientInitHeaders ⟨[[("accept", "application/json")]]⟩ 0 "K").2 ≠ 0 ∧
    (apiClientInitHeaders ⟨[[("accept", "application/json")]]⟩ 0 "K").1.deref
        (apiClientInitHeaders ⟨[[("accept", "application/json")]]⟩ 0 "K").2 =
      some (dictSet [("accept", "application/json")] "x-api-key" "K") ∧
    dictGet (dictSet [("accept", "application/json")] "x-api-key" "K")
        "x-api-key" = some "K" ∧
    ∀ k, k ≠ "x-api-key" →
      dictGet (dictSet [("accept", "application/json")] "x-api-key" "K") k =
        dictGet [("accept", "application/json")] k :=
  C10_headers_copied_not_mutated ⟨[[("accept", "application/json")]]⟩ 0 "K"
    [("accept", "application/json")] rfl
